import Mathlib

/-!
Verification of the weapp-backend catalog/configuration service.

The development embeds the JavaScript source shallowly:
- JS values that may be absent or non-string are `Option String` (with `none`
  covering `undefined`/non-string inputs to the image helpers);
- MongoDB documents are Lean structures; a stored collection is a `List`;
- timestamps (`new Date()`) are `Nat` values passed in explicitly as `now`;
- each Express handler becomes a function from request body and stored state
  to a response tag and the state after the handler completes;
- mongoose `insertMany` is modelled with its ordered semantics: all documents
  are validated first (required fields present); on a validation failure
  nothing is inserted; on a unique-index (`id`) violation the documents before
  the offending one remain inserted.

Revisions of the repository are distinguished by prefix:
`p2…` embeds `src/unnamed/part_002`, `p1…` embeds `src/unnamed/part_001`,
`srv…` embeds `src/server.js`.
-/

/-- The fixed default placeholder image, from `cleanImageURL`. -/
def defaultGoodsImage : String := "/images/goods/default_goods.png"

/-- JavaScript `s.startsWith(p)`, modelled over the character sequences of the
two strings. -/
def jsStartsWith (s p : String) : Bool := p.toList.isPrefixOf s.toList

/-- `isBase64Image(str)`: `typeof str === 'string' && str.startsWith('data:image/')`.
`none` models a non-string (or absent) value. -/
def isBase64Image : Option String → Bool
  | some s => jsStartsWith s "data:image/"
  | none => false

/-- `cleanImageURL(url)`: return `url` unchanged when `isBase64Image(url)`,
otherwise the fixed default placeholder. -/
def cleanImageURL (url : Option String) : String :=
  match url with
  | some s => if jsStartsWith s "data:image/" then s else defaultGoodsImage
  | none => defaultGoodsImage

/-- A goods item as submitted by the client in `goodsList`: any field may be
absent (or of the wrong type), modelled by `Option`. -/
structure GoodsInput where
  id : Option Int
  name : Option String
  score : Option Int
  desc : Option String
  image : Option String
  createdAt : Option Nat
deriving DecidableEq

/-- A goods document as stored by the `Goods` mongoose model of
`part_000`/`part_001`/`part_002` (global catalog, no `openid`). -/
structure GoodsItem where
  id : Int
  name : String
  score : Int
  desc : String
  image : String
  createdAt : Nat
  updatedAt : Nat
deriving DecidableEq

/-- The document built by the `goodsList.map` in `part_002`'s save handler,
before mongoose validation: `image`, `createdAt`, `updatedAt` are always set,
the four other fields are copied from the input and may still be absent. -/
structure ProcessedGood where
  id : Option Int
  name : Option String
  score : Option Int
  desc : Option String
  image : String
  createdAt : Nat
  updatedAt : Nat
deriving DecidableEq

/-- `isBase64Image(good.image) ? good.image : cleanImageURL(good.image)`. -/
def p2ImageOf (img : Option String) : String :=
  if isBase64Image img then img.getD defaultGoodsImage else cleanImageURL img

/-- JS `v || new Date()` on a date-valued field: absent (or falsy `0`) falls
back to the current time. -/
def jsOrDate (v : Option Nat) (now : Nat) : Nat :=
  match v with
  | some c => if c = 0 then now else c
  | none => now

/-- One item of the `goodsList.map` in `part_002` `POST /api/goods`. -/
def p2ProcessGood (now : Nat) (g : GoodsInput) : ProcessedGood :=
  { id := g.id, name := g.name, score := g.score, desc := g.desc,
    image := p2ImageOf g.image,
    createdAt := jsOrDate g.createdAt now,
    updatedAt := now }

/-- Mongoose schema validation of one document: `id`, `name`, `score`, `desc`
are `required: true` (`image` is also required but the handler always sets it
to a string). -/
def validateDoc (p : ProcessedGood) : Option GoodsItem :=
  match p.id, p.name, p.score, p.desc with
  | some i, some n, some sc, some d =>
      some { id := i, name := n, score := sc, desc := d,
             image := p.image, createdAt := p.createdAt, updatedAt := p.updatedAt }
  | _, _, _, _ => none

/-- Mongoose `insertMany` validates every document before writing any. -/
def validateAll : List ProcessedGood → Option (List GoodsItem)
  | [] => some []
  | p :: ps =>
    match validateDoc p, validateAll ps with
    | some x, some xs => some (x :: xs)
    | _, _ => none

/-- Ordered insert under the unique index on `id`: documents are written one
by one; a duplicate `id` aborts the operation, leaving the documents inserted
so far (`Except.error` carries the store at the point of failure). -/
def insertOrdered (acc : List GoodsItem) : List GoodsItem → Except (List GoodsItem) (List GoodsItem)
  | [] => .ok acc
  | x :: xs =>
    if acc.any (fun y => y.id == x.id) then .error acc
    else insertOrdered (acc ++ [x]) xs

/-- `Goods.insertMany(docs)` against the current store: validation first (a
failure writes nothing), then ordered insertion under the unique `id` index. -/
def insertMany (store : List GoodsItem) (docs : List ProcessedGood) :
    Except (List GoodsItem) (List GoodsItem) :=
  match validateAll docs with
  | none => .error store
  | some items => insertOrdered store items

/-- Responses of the goods save handler: HTTP 200, 400 (invalid format),
500 (insert failed). -/
inductive SaveResp where
  | ok
  | invalidFormat
  | serverError
deriving DecidableEq

/-- `part_002` `POST /api/goods`: reject a missing/non-array `goodsList`
(`none`) with 400, otherwise `deleteMany({})` then, when the list is
non-empty, `insertMany` of the processed documents; an insert failure
surfaces as 500 with the store as the failed insert left it. -/
def p2PostGoods (now : Nat) (st : List GoodsItem) (goodsList : Option (List GoodsInput)) :
    SaveResp × List GoodsItem :=
  match goodsList with
  | none => (.invalidFormat, st)
  | some l =>
    if 0 < l.length then
      match insertMany [] (l.map (p2ProcessGood now)) with
      | .ok items => (.ok, items)
      | .error leftover => (.serverError, leftover)
    else (.ok, [])

/-- Ascending `createdAt`, the sort key of `part_000`/`part_002`
`GET /api/goods` (`.sort({ createdAt: 1 })`). -/
def createdAsc (a b : GoodsItem) : Prop := a.createdAt ≤ b.createdAt

instance : DecidableRel createdAsc := fun a b => Nat.decLe a.createdAt b.createdAt

instance : IsTotal GoodsItem createdAsc := ⟨fun a b => Nat.le_total a.createdAt b.createdAt⟩

instance : IsTrans GoodsItem createdAsc := ⟨fun _ _ _ => Nat.le_trans⟩

/-- Descending `updatedAt`, the sort key of `part_001` `GET /api/goods`
(`.sort({ updatedAt: -1 })`). -/
def updatedDesc (a b : GoodsItem) : Prop := b.updatedAt ≤ a.updatedAt

instance : DecidableRel updatedDesc := fun a b => Nat.decLe b.updatedAt a.updatedAt

instance : IsTotal GoodsItem updatedDesc := ⟨fun a b => Nat.le_total b.updatedAt a.updatedAt⟩

instance : IsTrans GoodsItem updatedDesc := ⟨fun _ _ _ h h' => Nat.le_trans h' h⟩

/-- The per-item repair pass of `part_002` `GET /api/goods`:
`cleanedGood.image = cleanImageURL(cleanedGood.image)`. -/
def p2RepairGood (g : GoodsItem) : GoodsItem :=
  { g with image := cleanImageURL (some g.image) }

/-- `part_002` `GET /api/goods`: list all goods sorted ascending by
`createdAt`, each image passed through `cleanImageURL`. -/
def p2GetGoods (st : List GoodsItem) : List GoodsItem :=
  (List.insertionSort createdAsc st).map p2RepairGood

/-- `part_001` `GET /api/goods`: list all goods sorted descending by
`updatedAt`, returned as stored. -/
def p1GetGoods (st : List GoodsItem) : List GoodsItem :=
  List.insertionSort updatedDesc st

/-- A goods document of `server.js`, which scopes items by `openid`. -/
structure SrvGoodsItem where
  id : Int
  name : String
  score : Int
  desc : String
  image : String
  openid : String
  createdAt : Nat
  updatedAt : Nat
deriving DecidableEq

/-- Descending `updatedAt` on `server.js` goods documents. -/
def srvUpdatedDesc (a b : SrvGoodsItem) : Prop := b.updatedAt ≤ a.updatedAt

instance : DecidableRel srvUpdatedDesc := fun a b => Nat.decLe b.updatedAt a.updatedAt

instance : IsTotal SrvGoodsItem srvUpdatedDesc := ⟨fun a b => Nat.le_total b.updatedAt a.updatedAt⟩

instance : IsTrans SrvGoodsItem srvUpdatedDesc := ⟨fun _ _ _ h h' => Nat.le_trans h' h⟩

/-- Response of `server.js` `GET /api/goods`: 400 without an `openid` query,
otherwise the user's items sorted descending by `updatedAt`
(`.find({ openid }).sort({ updatedAt: -1 })`). -/
inductive SrvListResp where
  | missingOpenid
  | ok (items : List SrvGoodsItem)
deriving DecidableEq

/-- `server.js` `GET /api/goods`. -/
def srvGetGoods (st : List SrvGoodsItem) (openid : Option String) : SrvListResp :=
  match openid with
  | none => .missingOpenid
  | some oid =>
      .ok (List.insertionSort srvUpdatedDesc (st.filter (fun g => g.openid == oid)))

/-- The default `ruleList` of the `Config` schema. -/
def defaultRuleList : List String :=
  ["每消费1元可获得1积分，积分永久有效",
   "兑换商品需满足积分数量，积分扣除后不可退回",
   "商品数量有限，兑完即止，不设退换",
   "最终解释权归喜饼宠物所有"]

/-- The configuration document of `server.js` (the revision with the admin
gate): schema fields other than the fixed `id`. -/
structure Config where
  bannerImage : String
  bannerTitle : String
  ruleList : List String
  adminPassword : String
  createdAt : Nat
  updatedAt : Nat
deriving DecidableEq

/-- A freshly created `new Config({ id: 'global_config' })`: every field takes
its schema default. -/
def defaultConfig (now : Nat) : Config :=
  { bannerImage := "/images/banner.png",
    bannerTitle := "萌宠好礼 积分兑换",
    ruleList := defaultRuleList,
    adminPassword := "123456",
    createdAt := now,
    updatedAt := now }

/-- A JSON value as it appears in the config-read response body. -/
inductive JVal where
  | str (s : String)
  | num (n : Nat)
  | arr (l : List String)
deriving DecidableEq

/-- `server.js` `GET /api/config`: load (or lazily create) the global config,
then respond with the object literal
`{ bannerImage, bannerTitle, ruleList, updatedAt }` rebuilt from the
destructured fields. The response is modelled as the ordered field list of
that literal; the second component is the store afterwards. -/
def srvGetConfig (now : Nat) (st : Option Config) :
    List (String × JVal) × Option Config :=
  let cfg := match st with
    | some c => c
    | none => defaultConfig now
  ([("bannerImage", .str cfg.bannerImage),
    ("bannerTitle", .str cfg.bannerTitle),
    ("ruleList", .arr cfg.ruleList),
    ("updatedAt", .num cfg.updatedAt)], some cfg)

/-- Request body of `server.js` `POST /api/admin/config` (write handler):
every field may be absent. -/
structure AdminWriteBody where
  adminPwd : Option String
  bannerImage : Option String
  bannerTitle : Option String
  ruleList : Option (List String)
  newAdminPassword : Option String
deriving DecidableEq

/-- Responses of the gated mutation handlers: 200, 404, 401. -/
inductive MutResp where
  | ok
  | notFound
  | unauthorized
deriving DecidableEq

/-- JS `s.trim()`, modelled over the character sequence. -/
def jsTrim (s : String) : String :=
  ⟨((s.toList.dropWhile Char.isWhitespace).reverse.dropWhile Char.isWhitespace).reverse⟩

/-- `server.js` `POST /api/admin/config` (write handler, lines 183-212):
404 when no config exists; 401 when `adminPwd !== config.adminPassword`,
leaving the store untouched; otherwise each supplied field is written
(`newAdminPassword` only when non-blank after trimming), `updatedAt` is
stamped, and the document is saved. -/
def srvAdminConfigPost (now : Nat) (st : Option Config) (body : AdminWriteBody) :
    MutResp × Option Config :=
  match st with
  | none => (.notFound, none)
  | some cfg =>
    if body.adminPwd ≠ some cfg.adminPassword then (.unauthorized, some cfg)
    else
      let c1 := match body.bannerImage with
        | some v => { cfg with bannerImage := v }
        | none => cfg
      let c2 := match body.bannerTitle with
        | some v => { c1 with bannerTitle := v }
        | none => c1
      let c3 := match body.ruleList with
        | some v => { c2 with ruleList := v }
        | none => c2
      let c4 := match body.newAdminPassword with
        | some v => if jsTrim v ≠ "" then { c3 with adminPassword := v } else c3
        | none => c3
      (.ok, some { c4 with updatedAt := now })

/-- `server.js` `POST /api/reset-password`: compare the supplied `secret`
against the deployment-level `RESET_SECRET`; on mismatch 401 and no state
change; on match load or create the config and overwrite `adminPassword`
with the default `'123456'`. -/
def srvResetPassword (now : Nat) (resetSecret : String) (st : Option Config)
    (secret : Option String) : MutResp × Option Config :=
  if secret ≠ some resetSecret then (.unauthorized, st)
  else
    let cfg := match st with
      | some c => c
      | none => defaultConfig now
    (.ok, some { cfg with adminPassword := "123456" })

/-- The configuration document of `part_002` (no admin password field). -/
structure P2Config where
  bannerImage : String
  bannerTitle : String
  ruleList : List String
  createdAt : Nat
  updatedAt : Nat
deriving DecidableEq

/-- `part_002` `POST /api/config`: when a config exists, write each supplied
field (`bannerImage` through the base64 check / `cleanImageURL`), stamp
`updatedAt` and save; when absent, create a new document whose missing fields
take the schema defaults. -/
def p2PostConfig (now : Nat) (st : Option P2Config) (bannerImage : Option String)
    (bannerTitle : Option String) (ruleList : Option (List String)) : Option P2Config :=
  match st with
  | some cfg =>
    let c1 := match bannerImage with
      | some v => { cfg with bannerImage := if isBase64Image (some v) then v else cleanImageURL (some v) }
      | none => cfg
    let c2 := match bannerTitle with
      | some v => { c1 with bannerTitle := v }
      | none => c1
    let c3 := match ruleList with
      | some v => { c2 with ruleList := v }
      | none => c2
    some { c3 with updatedAt := now }
  | none =>
    some { bannerImage := p2ImageOf bannerImage,
           bannerTitle := bannerTitle.getD "萌宠好礼 积分兑换",
           ruleList := ruleList.getD defaultRuleList,
           createdAt := now,
           updatedAt := now }

/-- An input item passes the mongoose `required` validation of `part_002`'s
save handler exactly when `id`, `name`, `score`, `desc` are all present
(`image` is always set by the handler, the dates always default). -/
def p2InputValid (g : GoodsInput) : Bool :=
  g.id.isSome && g.name.isSome && g.score.isSome && g.desc.isSome

/-- The stored document produced from a valid input item by `part_002`'s save
handler at time `now` (the `getD` defaults are never used on valid input). -/
def itemOfInput (now : Nat) (g : GoodsInput) : GoodsItem :=
  { id := g.id.getD 0, name := g.name.getD "", score := g.score.getD 0,
    desc := g.desc.getD "", image := p2ImageOf g.image,
    createdAt := jsOrDate g.createdAt now, updatedAt := now }

/-- Equality of two stored goods items on every field except `updatedAt`. -/
def goodsContentEq (a b : GoodsItem) : Bool :=
  a.id == b.id && a.name == b.name && a.score == b.score && a.desc == b.desc
    && a.image == b.image && a.createdAt == b.createdAt

/-- Pointwise `goodsContentEq` of two catalogs of the same length. -/
def catalogContentEq : List GoodsItem → List GoodsItem → Bool
  | [], [] => true
  | x :: xs, y :: ys => goodsContentEq x y && catalogContentEq xs ys
  | _, _ => false

/-- Sample valid input item carrying an inline-encoded image and a creation
date. -/
def sampleGood1 : GoodsInput :=
  { id := some 1, name := some "a", score := some 10, desc := some "d",
    image := some "data:image/png;base64,AA", createdAt := some 5 }

/-- Sample valid input item with an untagged image URL and no creation date. -/
def sampleGood2 : GoodsInput :=
  { id := some 2, name := some "b", score := some 20, desc := some "e",
    image := some "http://x.png", createdAt := none }

/-- Sample valid input item that omits `createdAt`. -/
def sampleNoCreated : GoodsInput :=
  { id := some 1, name := some "a", score := some 10, desc := some "d",
    image := some "data:image/png;base64,AA", createdAt := none }

/-- Sample stored catalog item. -/
def sampleStored : GoodsItem :=
  { id := 9, name := "old", score := 5, desc := "o",
    image := "data:image/png;base64,BB", createdAt := 1, updatedAt := 1 }

/-- Sample malformed input item: `name` is missing. -/
def sampleBad : GoodsInput :=
  { id := some 2, name := none, score := some 1, desc := some "d",
    image := some "x", createdAt := none }

/-- C1: the image normalizer is total; a validly tagged string is returned
unchanged, and every other input (untagged string, empty string, non-string or
absent value) maps to the fixed default placeholder; no third value occurs. -/
theorem cleanImageURL_total (u : Option String) :
    (isBase64Image u = true ∧ some (cleanImageURL u) = u) ∨
    (isBase64Image u = false ∧ cleanImageURL u = defaultGoodsImage) := by
  match u with
  | none => exact Or.inr ⟨rfl, rfl⟩
  | some s =>
    by_cases h : jsStartsWith s "data:image/"
    · exact Or.inl ⟨h, by simp [cleanImageURL, h]⟩
    · exact Or.inr ⟨by simpa [isBase64Image] using h, by simp [cleanImageURL, h]⟩

/-- C10: the image normalizer is idempotent: re-normalizing an already
normalized value changes nothing, because a tagged value is a fixed point and
the default placeholder is itself untagged and maps to itself. -/
theorem cleanImageURL_idem (u : Option String) :
    cleanImageURL (some (cleanImageURL u)) = cleanImageURL u := by
  match u with
  | none => simp [cleanImageURL]
  | some s =>
    by_cases h : jsStartsWith s "data:image/"
    · simp [cleanImageURL, h]
    · simp [cleanImageURL, h]

/-- The conditional image rewrite used by the handlers coincides with
`cleanImageURL`, which already returns tagged strings unchanged. -/
theorem ifBase64_eq_clean (v : String) :
    (if isBase64Image (some v) then v else cleanImageURL (some v)) = cleanImageURL (some v) := by
  by_cases h : jsStartsWith v "data:image/"
  · simp [isBase64Image, cleanImageURL, h]
  · simp [isBase64Image, h]

/-- On a valid input item, validation of the processed document succeeds and
yields `itemOfInput`. -/
theorem validateDoc_process (now : Nat) (g : GoodsInput) (h : p2InputValid g = true) :
    validateDoc (p2ProcessGood now g) = some (itemOfInput now g) := by
  rcases g with ⟨i?, n?, s?, d?, img?, c?⟩
  rcases i? with _ | i
  · simp [p2InputValid] at h
  rcases n? with _ | n
  · simp [p2InputValid] at h
  rcases s? with _ | s
  · simp [p2InputValid] at h
  rcases d? with _ | d
  · simp [p2InputValid] at h
  rfl

/-- On an invalid input item, validation of the processed document fails. -/
theorem validateDoc_process_invalid (now : Nat) (g : GoodsInput)
    (h : p2InputValid g = false) :
    validateDoc (p2ProcessGood now g) = none := by
  rcases g with ⟨i?, n?, s?, d?, img?, c?⟩
  rcases i? with _ | i <;> rcases n? with _ | n <;> rcases s? with _ | s <;>
    rcases d? with _ | d <;>
    first
      | rfl
      | simp [p2InputValid] at h

/-- When every input item is valid, `insertMany`'s validation pass succeeds
and produces exactly the processed items. -/
theorem validateAll_map (now : Nat) (l : List GoodsInput)
    (h : ∀ g ∈ l, p2InputValid g = true) :
    validateAll (l.map (p2ProcessGood now)) = some (l.map (itemOfInput now)) := by
  induction l with
  | nil => rfl
  | cons g gs ih =>
    simp only [List.map_cons, validateAll]
    rw [validateDoc_process now g (h g (by simp)),
      ih (fun x hx => h x (by simp [hx]))]

/-- When some input item is invalid, `insertMany`'s validation pass fails. -/
theorem validateAll_none (now : Nat) (l : List GoodsInput)
    (h : ∃ g ∈ l, p2InputValid g = false) :
    validateAll (l.map (p2ProcessGood now)) = none := by
  induction l with
  | nil => simp at h
  | cons g gs ih =>
    obtain ⟨x, hx, hxv⟩ := h
    rcases List.mem_cons.mp hx with hx | hx
    · subst hx
      simp [validateAll, validateDoc_process_invalid now x hxv]
    · cases hd : validateDoc (p2ProcessGood now g) <;>
        simp [validateAll, hd, ih ⟨x, hx, hxv⟩]

/-- Ordered insertion succeeds and appends when ids are globally distinct. -/
theorem insertOrdered_ok (xs : List GoodsItem) :
    ∀ acc : List GoodsItem, ((acc ++ xs).map GoodsItem.id).Nodup →
      insertOrdered acc xs = .ok (acc ++ xs) := by
  induction xs with
  | nil => intro acc _; simp [insertOrdered]
  | cons x xs ih =>
    intro acc h
    have hx : x.id ∉ acc.map GoodsItem.id := by
      intro hmem
      rw [List.map_append] at h
      exact (List.nodup_append.mp h).2.2 hmem (by simp)
    have hany : (acc.any fun y => y.id == x.id) = false := by
      rw [List.any_eq_false]
      intro y hy
      simp only [beq_iff_eq]
      intro heq
      exact hx (heq ▸ List.mem_map_of_mem GoodsItem.id hy)
    have hrest : (((acc ++ [x]) ++ xs).map GoodsItem.id).Nodup := by
      simpa [List.append_assoc] using h
    simp only [insertOrdered, hany, Bool.false_eq_true, if_false]
    rw [ih (acc ++ [x]) hrest]
    simp

/-- The stored ids of the processed items are the submitted ids. -/
theorem map_some_id_itemOf (now : Nat) (l : List GoodsInput)
    (h : ∀ g ∈ l, p2InputValid g = true) :
    (l.map (itemOfInput now)).map (fun g : GoodsItem => some g.id) = l.map GoodsInput.id := by
  rw [List.map_map]
  refine List.map_congr_left ?_
  intro g hg
  have hv := h g hg
  rcases hid : g.id with _ | i
  · simp [p2InputValid, hid] at hv
  · simp [Function.comp, itemOfInput, hid]

/-- Distinct submitted ids give distinct stored ids. -/
theorem ids_nodup_of_input (now : Nat) (l : List GoodsInput)
    (hval : ∀ g ∈ l, p2InputValid g = true)
    (hnod : (l.map GoodsInput.id).Nodup) :
    ((l.map (itemOfInput now)).map GoodsItem.id).Nodup := by
  have hmap : (l.map (itemOfInput now)).map GoodsItem.id
      = l.map (fun g => (GoodsInput.id g).getD 0) := by
    rw [List.map_map]
    rfl
  rw [hmap]
  have h2 : l.map GoodsInput.id = (l.map (fun g => (GoodsInput.id g).getD 0)).map some := by
    rw [List.map_map]
    refine List.map_congr_left ?_
    intro g hg
    have hv := hval g hg
    rcases hid : g.id with _ | i
    · simp [p2InputValid, hid] at hv
    · simp [Function.comp, hid]
  rw [h2] at hnod
  exact hnod.of_map some

/-- On a well-formed submission `part_002`'s save handler succeeds and the
store afterwards is exactly the processed submission. -/
theorem p2PostGoods_valid (now : Nat) (st : List GoodsItem) (l : List GoodsInput)
    (hval : ∀ g ∈ l, p2InputValid g = true)
    (hnod : (l.map GoodsInput.id).Nodup) :
    p2PostGoods now st (some l) = (.ok, l.map (itemOfInput now)) := by
  rcases l with _ | ⟨g, gs⟩
  · rfl
  · have hins : insertMany [] ((g :: gs).map (p2ProcessGood now))
        = .ok ((g :: gs).map (itemOfInput now)) := by
      rw [insertMany, validateAll_map now _ hval]
      simpa using insertOrdered_ok ((g :: gs).map (itemOfInput now)) []
        (by simpa using ids_nodup_of_input now _ hval hnod)
    simp only [p2PostGoods, List.length_cons]
    rw [if_pos (Nat.succ_pos _), hins]

/-- Pointwise content equality holds between the processed forms of the same
submission at two different times whenever every item supplies a (truthy)
creation date. -/
theorem catalogContentEq_map_itemOf (now now₂ : Nat) (l : List GoodsInput)
    (hcr : ∀ g ∈ l, ∃ c, g.createdAt = some c ∧ c ≠ 0) :
    catalogContentEq (l.map (itemOfInput now₂)) (l.map (itemOfInput now)) = true := by
  induction l with
  | nil => rfl
  | cons g gs ih =>
    obtain ⟨c, hc, hc0⟩ := hcr g (by simp)
    simp only [List.map_cons, catalogContentEq, Bool.and_eq_true]
    refine ⟨?_, ih (fun x hx => hcr x (by simp [hx]))⟩
    simp [goodsContentEq, itemOfInput, jsOrDate, hc, hc0]

/-- C2 counterexample: with one stored item and a submitted array containing
an item whose required `name` is missing, `part_002`'s save handler empties
the catalog and answers with a server error, so the store does not equal its
prior contents. -/
theorem p2PostGoods_partialDelete_cex :
    (p2PostGoods 3 [sampleStored] (some [sampleBad])).2 ≠ [sampleStored]
    ∧ (p2PostGoods 3 [sampleStored] (some [sampleBad])).1 = SaveResp.serverError := by
  constructor
  · decide
  · decide

/-- C2 amended: a missing or non-array `goodsList` is rejected with a
validation error and the store is unchanged; but an array containing an item
missing a required field passes the shape check, the unconditional delete has
already emptied the catalog, and the item-level validation failure surfaces
as a server error with the catalog left empty (all prior items deleted, none
inserted). -/
theorem p2PostGoods_malformed (now : Nat) (st : List GoodsItem) (l : List GoodsInput) :
    p2PostGoods now st none = (.invalidFormat, st)
    ∧ ((∃ g ∈ l, p2InputValid g = false) →
        (p2PostGoods now st (some l)).1 = .serverError
        ∧ (p2PostGoods now st (some l)).2 = []) := by
  refine ⟨rfl, ?_⟩
  intro h
  obtain ⟨g, hg, hbad⟩ := h
  have hlen : 0 < l.length := List.length_pos_of_mem hg
  have hval : validateAll (l.map (p2ProcessGood now)) = none :=
    validateAll_none now l ⟨g, hg, hbad⟩
  have hins : insertMany [] (l.map (p2ProcessGood now)) = .error [] := by
    rw [insertMany, hval]
  constructor <;> simp [p2PostGoods, hlen, hins]

theorem p2PostGoods_malformed_witness :
    p2PostGoods 3 [sampleStored] none = (SaveResp.invalidFormat, [sampleStored])
    ∧ (p2PostGoods 3 [sampleStored] (some [sampleBad])).1 = SaveResp.serverError
    ∧ (p2PostGoods 3 [sampleStored] (some [sampleBad])).2 = [] := by
  have h := p2PostGoods_malformed 3 [sampleStored] [sampleBad]
  have h2 := h.2 ⟨sampleBad, by decide, by decide⟩
  exact ⟨h.1, h2.1, h2.2⟩

/-- C3: the admin gate of `server.js`'s config-write handler: a missing
config yields not-found and no state; the stored password authorizes the
mutation; any other supplied password yields unauthorized with every stored
configuration field unchanged (the comparison runs before any mutation, so a
failed comparison leaves the record exactly as it was). -/
theorem srvAdminGate_correct (now : Nat) (body : AdminWriteBody) (cfg : Config) :
    srvAdminConfigPost now none body = (.notFound, none)
    ∧ (body.adminPwd = some cfg.adminPassword →
        (srvAdminConfigPost now (some cfg) body).1 = .ok)
    ∧ (body.adminPwd ≠ some cfg.adminPassword →
        srvAdminConfigPost now (some cfg) body = (.unauthorized, some cfg)) := by
  refine ⟨rfl, ?_, ?_⟩
  · intro h
    simp [srvAdminConfigPost, h]
  · intro h
    simp [srvAdminConfigPost, h]

theorem srvAdminGate_correct_witness :
    srvAdminConfigPost 7 (some (defaultConfig 0))
        { adminPwd := some "wrong", bannerImage := none, bannerTitle := none,
          ruleList := none, newAdminPassword := none }
      = (MutResp.unauthorized, some (defaultConfig 0))
    ∧ (srvAdminConfigPost 7 (some (defaultConfig 0))
        { adminPwd := some "123456", bannerImage := none, bannerTitle := none,
          ruleList := none, newAdminPassword := none }).1 = MutResp.ok := by
  constructor
  · exact (srvAdminGate_correct 7
      { adminPwd := some "wrong", bannerImage := none, bannerTitle := none,
        ruleList := none, newAdminPassword := none } (defaultConfig 0)).2.2 (by decide)
  · exact (srvAdminGate_correct 7
      { adminPwd := some "123456", bannerImage := none, bannerTitle := none,
        ruleList := none, newAdminPassword := none } (defaultConfig 0)).2.1 (by decide)

/-- C4: for every stored (or lazily created) configuration, the public
config-read response of `server.js` carries exactly the fields `bannerImage`,
`bannerTitle`, `ruleList`, `updatedAt`, and in particular never an
`adminPassword`/`adminSecret` field. -/
theorem srvGetConfig_noSecret (now : Nat) (st : Option Config) :
    ((srvGetConfig now st).1.map Prod.fst)
      = ["bannerImage", "bannerTitle", "ruleList", "updatedAt"]
    ∧ "adminPassword" ∉ ((srvGetConfig now st).1.map Prod.fst)
    ∧ "adminSecret" ∉ ((srvGetConfig now st).1.map Prod.fst) := by
  have hk : ((srvGetConfig now st).1.map Prod.fst)
      = ["bannerImage", "bannerTitle", "ruleList", "updatedAt"] := rfl
  refine ⟨hk, ?_, ?_⟩ <;> rw [hk] <;> decide

/-- C5: after a well-formed replace-all of the catalog, a list read returns
exactly the submitted items: the save succeeds, the returned ids are a
permutation of the submitted ids, and the count matches. -/
theorem p2ReplaceThenList_ids (now : Nat) (st : List GoodsItem) (l : List GoodsInput)
    (hval : ∀ g ∈ l, p2InputValid g = true)
    (hnod : (l.map GoodsInput.id).Nodup) :
    (p2PostGoods now st (some l)).1 = .ok
    ∧ ((p2GetGoods (p2PostGoods now st (some l)).2).map (fun g => some g.id)).Perm
        (l.map GoodsInput.id)
    ∧ (p2GetGoods (p2PostGoods now st (some l)).2).length = l.length := by
  have hpost := p2PostGoods_valid now st l hval hnod
  have hst : (p2PostGoods now st (some l)).2 = l.map (itemOfInput now) := by
    rw [hpost]
  have hid : (p2GetGoods (l.map (itemOfInput now))).map (fun g => some g.id)
      = ((List.insertionSort createdAsc (l.map (itemOfInput now))).map
          (fun g : GoodsItem => some g.id)) := by
    rw [p2GetGoods, List.map_map]
    rfl
  have hperm : ((List.insertionSort createdAsc (l.map (itemOfInput now))).map
      (fun g : GoodsItem => some g.id)).Perm
      ((l.map (itemOfInput now)).map (fun g : GoodsItem => some g.id)) :=
    (List.perm_insertionSort createdAsc (l.map (itemOfInput now))).map _
  refine ⟨by rw [hpost], ?_, ?_⟩
  · rw [hst, hid]
    exact (map_some_id_itemOf now l hval) ▸ hperm
  · rw [hst]
    have hlen := (List.perm_insertionSort createdAsc (l.map (itemOfInput now))).length_eq
    simp [p2GetGoods, hlen]

theorem p2ReplaceThenList_ids_witness :
    (p2PostGoods 7 [] (some [sampleGood1, sampleGood2])).1 = SaveResp.ok
    ∧ ((p2GetGoods (p2PostGoods 7 [] (some [sampleGood1, sampleGood2])).2).map
        (fun g => some g.id)).Perm ([sampleGood1, sampleGood2].map GoodsInput.id)
    ∧ (p2GetGoods (p2PostGoods 7 [] (some [sampleGood1, sampleGood2])).2).length = 2 :=
  p2ReplaceThenList_ids 7 [] [sampleGood1, sampleGood2] (by decide) (by decide)

/-- C6: the credential reset of `server.js`: with the deployment reset secret
it overwrites the admin password with the default `"123456"`, creating the
configuration from defaults when absent and leaving every other field of an
existing configuration untouched; with any other supplied secret it answers
unauthorized and the store is exactly as before. -/
theorem srvResetPassword_correct (now : Nat) (rs : String) (st : Option Config)
    (secret : Option String) :
    (secret = some rs → ∃ c, srvResetPassword now rs st secret = (.ok, some c)
        ∧ c.adminPassword = "123456"
        ∧ (∀ prior, st = some prior → c.bannerImage = prior.bannerImage
            ∧ c.bannerTitle = prior.bannerTitle ∧ c.ruleList = prior.ruleList
            ∧ c.createdAt = prior.createdAt ∧ c.updatedAt = prior.updatedAt)
        ∧ (st = none → c = { defaultConfig now with adminPassword := "123456" }))
    ∧ (secret ≠ some rs → srvResetPassword now rs st secret = (.unauthorized, st)) := by
  constructor
  · intro h
    subst h
    rcases st with _ | prior
    · refine ⟨{ defaultConfig now with adminPassword := "123456" }, ?_, rfl, ?_, ?_⟩
      · simp [srvResetPassword]
      · intro p hp
        exact Option.noConfusion hp
      · intro _
        rfl
    · refine ⟨{ prior with adminPassword := "123456" }, ?_, rfl, ?_, ?_⟩
      · simp [srvResetPassword]
      · intro p hp
        cases hp
        exact ⟨rfl, rfl, rfl, rfl, rfl⟩
      · intro hnone
        exact Option.noConfusion hnone
  · intro h
    simp [srvResetPassword, h]

theorem srvResetPassword_correct_witness :
    (∃ c, srvResetPassword 9 "rs" (some { defaultConfig 3 with adminPassword := "s3cret" })
        (some "rs") = (.ok, some c) ∧ c.adminPassword = "123456")
    ∧ srvResetPassword 9 "rs" (some { defaultConfig 3 with adminPassword := "s3cret" })
        (some "zz")
      = (MutResp.unauthorized, some { defaultConfig 3 with adminPassword := "s3cret" }) := by
  constructor
  · obtain ⟨c, h1, h2, _⟩ := (srvResetPassword_correct 9 "rs"
      (some { defaultConfig 3 with adminPassword := "s3cret" }) (some "rs")).1 rfl
    exact ⟨c, h1, h2⟩
  · exact (srvResetPassword_correct 9 "rs"
      (some { defaultConfig 3 with adminPassword := "s3cret" }) (some "zz")).2 (by decide)

/-- C7 counterexample: `server.js`'s gated config write stores a supplied
`bannerImage` verbatim: the value `"not-base64"` is persisted even though the
image normalizer would have replaced it with the default placeholder, so the
upsert does not pass `bannerImage` through the normalizer. -/
theorem srvAdminWrite_noNormalize_cex :
    ((srvAdminConfigPost 5 (some (defaultConfig 0))
        { adminPwd := some "123456", bannerImage := some "not-base64",
          bannerTitle := none, ruleList := none, newAdminPassword := none }).2.map
      Config.bannerImage) = some "not-base64"
    ∧ cleanImageURL (some "not-base64") = defaultGoodsImage
    ∧ ("not-base64" : String) ≠ defaultGoodsImage := by
  refine ⟨by decide, by decide, by decide⟩

/-- C7 amended: both config-write paths are merge-patches: a payload carrying
only `bannerTitle` changes only `bannerTitle` (plus the `updatedAt` stamp),
with `bannerImage`, `ruleList` and the admin password keeping their prior
values, and in general every absent field is left untouched; but only
`part_002`'s config write passes a supplied `bannerImage` through the image
normalizer — `server.js`'s admin write stores it verbatim. -/
theorem configUpsert_mergePatch (now : Nat) (cfg : Config) (t img : String)
    (p2cfg : P2Config) :
    (srvAdminConfigPost now (some cfg)
        { adminPwd := some cfg.adminPassword, bannerImage := none,
          bannerTitle := some t, ruleList := none, newAdminPassword := none }).2
      = some { cfg with bannerTitle := t, updatedAt := now }
    ∧ (srvAdminConfigPost now (some cfg)
        { adminPwd := some cfg.adminPassword, bannerImage := some img,
          bannerTitle := none, ruleList := none, newAdminPassword := none }).2
      = some { cfg with bannerImage := img, updatedAt := now }
    ∧ p2PostConfig now (some p2cfg) (some img) none none
      = some { p2cfg with bannerImage := cleanImageURL (some img), updatedAt := now }
    ∧ p2PostConfig now (some p2cfg) none (some t) none
      = some { p2cfg with bannerTitle := t, updatedAt := now } := by
  refine ⟨?_, ?_, ?_, rfl⟩
  · simp [srvAdminConfigPost]
  · simp [srvAdminConfigPost]
  · simp [p2PostConfig, ifBase64_eq_clean]

/-- C8 counterexample: submitting the same single-item list (whose item omits
`createdAt`) twice, at times 1 and then 2, yields a catalog that differs from
the single save in `createdAt` as well, not only in `updatedAt`. -/
theorem p2SaveTwice_cex :
    catalogContentEq
      (p2PostGoods 2 (p2PostGoods 1 [] (some [sampleNoCreated])).2 (some [sampleNoCreated])).2
      (p2PostGoods 1 [] (some [sampleNoCreated])).2 = false := by
  decide

/-- C8 amended: the replace is idempotent up to `updatedAt` only for items
that carry a (truthy) `createdAt`; an item omitting it has `createdAt`
re-stamped to the operation time, so a second save at a later time changes
`createdAt` too. For well-formed lists whose items all supply a nonzero
`createdAt`, saving twice yields a catalog with the same content (every field
except `updatedAt`) as saving once, from any initial states. -/
theorem p2SaveTwice_idem (now now₂ : Nat) (st st' : List GoodsItem)
    (l : List GoodsInput)
    (hval : ∀ g ∈ l, p2InputValid g = true)
    (hnod : (l.map GoodsInput.id).Nodup)
    (hcr : ∀ g ∈ l, ∃ c, g.createdAt = some c ∧ c ≠ 0) :
    catalogContentEq
      (p2PostGoods now₂ (p2PostGoods now st (some l)).2 (some l)).2
      (p2PostGoods now st' (some l)).2 = true := by
  have h1 : (p2PostGoods now st (some l)).2 = l.map (itemOfInput now) := by
    rw [p2PostGoods_valid now st l hval hnod]
  have h2 : (p2PostGoods now₂ (l.map (itemOfInput now)) (some l)).2
      = l.map (itemOfInput now₂) := by
    rw [p2PostGoods_valid now₂ _ l hval hnod]
  have h3 : (p2PostGoods now st' (some l)).2 = l.map (itemOfInput now) := by
    rw [p2PostGoods_valid now st' l hval hnod]
  rw [h1, h2, h3]
  exact catalogContentEq_map_itemOf now now₂ l hcr

theorem p2SaveTwice_idem_witness :
    catalogContentEq
      (p2PostGoods 2 (p2PostGoods 1 [] (some [sampleGood1])).2 (some [sampleGood1])).2
      (p2PostGoods 1 [] (some [sampleGood1])).2 = true :=
  p2SaveTwice_idem 1 2 [] [] [sampleGood1] (by decide) (by decide)
    (fun g hg => ⟨5, by
      have : g = sampleGood1 := by
        simpa using hg
      rw [this]
      exact ⟨rfl, by decide⟩⟩)

/-- C9: each revision's list operation applies its documented order to every
read: `part_002` (the final revision) returns a permutation of the (repaired)
store sorted ascending by `createdAt`; `server.js` and `part_001` (earlier
revisions) return a permutation of the (scoped) store sorted descending by
`updatedAt`. -/
theorem listGoods_order (st stP : List GoodsItem) (stS : List SrvGoodsItem) (oid : String) :
    List.Sorted createdAsc (p2GetGoods st)
    ∧ (p2GetGoods st).Perm (st.map p2RepairGood)
    ∧ List.Sorted updatedDesc (p1GetGoods stP)
    ∧ (p1GetGoods stP).Perm stP
    ∧ (∃ l, srvGetGoods stS (some oid) = .ok l
        ∧ List.Sorted srvUpdatedDesc l
        ∧ l.Perm (stS.filter (fun g => g.openid == oid))) := by
  refine ⟨?_, ?_, ?_, ?_, ?_⟩
  · exact List.Pairwise.map p2RepairGood (fun a b h => h)
      (List.sorted_insertionSort createdAsc st)
  · exact (List.perm_insertionSort createdAsc st).map p2RepairGood
  · exact List.sorted_insertionSort updatedDesc stP
  · exact List.perm_insertionSort updatedDesc stP
  · exact ⟨_, rfl, List.sorted_insertionSort srvUpdatedDesc _,
      List.perm_insertionSort srvUpdatedDesc _⟩
